import Mathlib

/-
Shallow embedding of the `rgb` Game Boy emulator core (Rust) in Lean 4.

The embedding follows the source files:
  * `src/vid/gpu.rs`   — video timing state machine (`Gpu`)
  * `src/mem/mmu.rs`   — memory interconnect (`Mmu`)
  * `src/cpu/regs.rs`  — register file (`Regs`, `Flag`)
  * `src/cpu/cpu.rs`   — fetch/decode/execute engine (`Cpu`)

Machine integers are embedded as `Nat` with explicit `% 256` / `% 65536`
where the source uses `wrapping_*`; where the source performs unchecked
`u16` arithmetic that can overflow (panicking under Rust's checked
arithmetic), the embedded operation returns `Option`/an explicit failure
outcome.  The process-terminating `panic!` paths of the CPU are embedded
as an explicit `StepResult.fatal` outcome carrying the dumped state, and
arithmetic-overflow aborts as `StepResult.overflow`.

Two pieces of the repository are referenced but not present among the
sources (`src/cpu/opcode.rs` — the opcode table — and `src/mem/bios.rs` —
the boot-overlay image); they are modelled from the specification, and
each such definition carries a doc comment saying so.  The `dbg::log`
sink only performs logging side effects and is dropped from the model.
-/

set_option maxRecDepth 32768

namespace RGB

/-! ## Video timing state machine (`src/vid/gpu.rs`) -/

/-- Display modes of the GPU, from the `Mode` enum in `gpu.rs`. -/
inductive Mode
  | HBlank      -- Mode 0
  | VBlank      -- Mode 1
  | OamScan     -- Mode 2
  | Drawing     -- Mode 3
deriving DecidableEq

/-- GPU state: the source `Gpu` struct holds only the current mode. -/
structure Gpu where
  curr_mode : Mode
deriving DecidableEq

/-- Creates a new GPU object (`Gpu::new`). -/
def Gpu.new : Gpu := ⟨Mode.OamScan⟩

/-- Steps the GPU for a certain number of cycles (`Gpu::step`).  The source
body is a bare `// TODO.` followed by a log statement: no state is read or
written, so the embedded step is the identity on the GPU state. -/
def Gpu.step (g : Gpu) (_ncycles : Nat) : Gpu := g

/-! ## Memory interconnect (`src/mem/mmu.rs`) -/


/-- Modelled from the spec: the fixed 256-byte boot-overlay (BIOS) image lives
in `src/mem/bios.rs`, which is not among the sources at hand.  The spec pins it
as a fixed read-only constant; the in-tree memory tests pin its first three
bytes (`read_byte(0x00) == 0x31`, `read_word(0x01) == 0xfffe`, i.e. the bytes
`0x31 0xfe 0xff` of `LD SP, 0xFFFE`).  Bytes beyond the third are not needed by
any property below and are modelled as `0x00`. -/
def BIOS : Nat → Nat := fun i =>
  if i = 0 then 0x31 else if i = 1 then 0xfe else if i = 2 then 0xff else 0x00

/-- Memory interconnect state (`struct Mmu`).  The fixed-size byte arrays
`vram`/`wram`/`zram` are embedded as functions from the array offset to the
stored byte. -/
structure Mmu where
  is_bios_mapped : Bool
  vram : Nat → Nat
  wram : Nat → Nat
  zram : Nat → Nat
  gpu : Gpu

/-- Creates an initialized Mmu (`Mmu::new`). -/
def Mmu.new : Mmu :=
  { is_bios_mapped := true
    vram := fun _ => 0x00
    wram := fun _ => 0x00
    zram := fun _ => 0x00
    gpu := Gpu.new }

/-- Removes the BIOS from memory (`Mmu::unmap_bios`). -/
def Mmu.unmap_bios (m : Mmu) : Mmu := { m with is_bios_mapped := false }

/-- Reads a byte from memory at `addr`; returns `0x00` if the memory region is
unmapped (`Mmu::read_byte`, sans the logging call).  The address-range match
arms appear in source order. -/
def Mmu.read_byte (m : Mmu) (addr : Nat) : Nat :=
  if m.is_bios_mapped = true ∧ 0x0000 ≤ addr ∧ addr ≤ 0x00ff then    -- BIOS
    BIOS (addr - 0x0000)
  else if 0x8000 ≤ addr ∧ addr ≤ 0x9fff then                        -- VRAM
    m.vram (addr - 0x8000)
  else if 0xc000 ≤ addr ∧ addr ≤ 0xdfff then                        -- WRAM
    m.wram (addr - 0xc000)
  else if 0xe000 ≤ addr ∧ addr ≤ 0xfdff then                        -- RRAM
    m.wram (addr - 0xe000)
  else if 0xff80 ≤ addr ∧ addr ≤ 0xfffe then                        -- ZRAM
    m.zram (addr - 0xff80)
  else
    0x00

/-- Reads a little-endian word from memory at `addr` (`Mmu::read_word`).  The
source computes `addr + 1` with unchecked `u16` addition, which overflows when
`addr = 0xffff` and panics under Rust's checked arithmetic; the overflowing
case is embedded as `none`. -/
def Mmu.read_word (m : Mmu) (addr : Nat) : Option Nat :=
  if addr + 1 ≥ 0x10000 then none
  else
    let lsb := m.read_byte addr
    let msb := m.read_byte (addr + 1)
    some ((msb <<< 8) ||| lsb)

/-- Writes `val` into memory at `addr`; writes to unmapped regions are
discarded (`Mmu::write_byte`).  The address-range match arms appear in source
order. -/
def Mmu.write_byte (m : Mmu) (addr val : Nat) : Mmu :=
  if 0x8000 ≤ addr ∧ addr ≤ 0x9fff then                             -- VRAM
    { m with vram := fun i => if i = addr - 0x8000 then val else m.vram i }
  else if 0xc000 ≤ addr ∧ addr ≤ 0xdfff then                        -- WRAM
    { m with wram := fun i => if i = addr - 0xc000 then val else m.wram i }
  else if 0xe000 ≤ addr ∧ addr ≤ 0xfdff then                        -- RRAM
    { m with wram := fun i => if i = addr - 0xe000 then val else m.wram i }
  else if 0xff80 ≤ addr ∧ addr ≤ 0xfffe then                        -- ZRAM
    { m with zram := fun i => if i = addr - 0xff80 then val else m.zram i }
  else
    m

/-- Writes a little-endian word into memory at `addr` (`Mmu::write_word`).
Like `read_word`, the source computes `addr + 1` with unchecked `u16`
addition; the overflowing case is embedded as `none`. -/
def Mmu.write_word (m : Mmu) (addr d16 : Nat) : Option Mmu :=
  if addr + 1 ≥ 0x10000 then none
  else
    let lsb := d16 &&& 0x00ff
    let msb := (d16 >>> 8) &&& 0x00ff
    some ((m.write_byte addr lsb).write_byte (addr + 1) msb)

/-- One mutating operation of the memory interconnect's public interface
(the `&mut self` methods of `impl Mmu`): `write_byte`, `write_word`,
`unmap_bios`.  The read operations take `&self` and cannot change state. -/
inductive MmuOp
  | write_b (addr val : Nat)
  | write_w (addr d16 : Nat)
  | unmap

/-- Applies one interconnect operation; `none` models the `write_word`
overflow abort. -/
def applyOp (m : Mmu) : MmuOp → Option Mmu
  | .write_b a v => some (m.write_byte a v)
  | .write_w a v => m.write_word a v
  | .unmap => some m.unmap_bios

/-- Applies a sequence of interconnect operations, stopping at an abort. -/
def applyOps (m : Mmu) : List MmuOp → Option Mmu
  | [] => some m
  | op :: ops =>
    match applyOp m op with
    | none => none
    | some m' => applyOps m' ops

/-! ## Register file (`src/cpu/regs.rs`) -/

/-- Condition-code flags and their bit masks in the F register (`enum Flag`). -/
inductive Flag
  | Z
  | N
  | H
  | C
deriving DecidableEq

/-- Bit mask of a flag, from the enum discriminants in `regs.rs`. -/
def Flag.mask : Flag → Nat
  | .Z => 0b10000000
  | .N => 0b01000000
  | .H => 0b00100000
  | .C => 0b00010000

/-- Register file (`struct Regs`); `Default` zeroes every field. -/
structure Regs where
  a : Nat := 0
  f : Nat := 0
  b : Nat := 0
  c : Nat := 0
  d : Nat := 0
  e : Nat := 0
  h : Nat := 0
  l : Nat := 0
  pc : Nat := 0
  sp : Nat := 0
deriving DecidableEq

/-- Helper to decrement a 16-bit (2x 8-bit) register pair (`Regs::_dec_r16`);
`wrapping_sub(x, 1)` on a `u8` value is `(x + 255) % 256`. -/
def dec_r16 (msb lsb : Nat) : Nat × Nat :=
  let res_lsb := (lsb + 255) % 256
  let res_msb := if res_lsb = 0xff then (msb + 255) % 256 else msb
  (res_msb, res_lsb)

/-- Helper to increment a 16-bit (2x 8-bit) register pair (`Regs::_inc_r16`). -/
def inc_r16 (msb lsb : Nat) : Nat × Nat :=
  let res_lsb := (lsb + 1) % 256
  let res_msb := if res_lsb = 0x00 then (msb + 1) % 256 else msb
  (res_msb, res_lsb)

def Regs.af (r : Regs) : Nat := (r.a <<< 8) + r.f
def Regs.bc (r : Regs) : Nat := (r.b <<< 8) + r.c
def Regs.de (r : Regs) : Nat := (r.d <<< 8) + r.e
def Regs.hl (r : Regs) : Nat := (r.h <<< 8) + r.l

def Regs.dec_bc (r : Regs) : Regs :=
  let p := dec_r16 r.b r.c
  { r with b := p.1, c := p.2 }

def Regs.dec_de (r : Regs) : Regs :=
  let p := dec_r16 r.d r.e
  { r with d := p.1, e := p.2 }

def Regs.dec_hl (r : Regs) : Regs :=
  let p := dec_r16 r.h r.l
  { r with h := p.1, l := p.2 }

def Regs.inc_hl (r : Regs) : Regs :=
  let p := inc_r16 r.h r.l
  { r with h := p.1, l := p.2 }

def Regs.set_bc (r : Regs) (raw : Nat) : Regs :=
  { r with b := (raw &&& 0xff00) >>> 8, c := raw &&& 0x00ff }

def Regs.set_de (r : Regs) (raw : Nat) : Regs :=
  { r with d := (raw &&& 0xff00) >>> 8, e := raw &&& 0x00ff }

def Regs.set_hl (r : Regs) (raw : Nat) : Regs :=
  { r with h := (raw &&& 0xff00) >>> 8, l := raw &&& 0x00ff }

/-- Modelled from the spec: `Regs::set_af` is called by the CPU (`POP AF`) but
is not among the register-file sources at hand.  Per the spec's data model the
pair setters split the 16-bit value with the first-named register as high byte,
and the lower nibble of F is unused and must read as zero, so the F half is
masked to its four flag bits. -/
def Regs.set_af (r : Regs) (raw : Nat) : Regs :=
  { r with a := (raw &&& 0xff00) >>> 8, f := raw &&& 0x00f0 }

/-- Sets or clears a flag bit (`Regs::set_flag`); `!mask` on a `u8` is
`0xff ^^^ mask`. -/
def Regs.set_flag (r : Regs) (flag : Flag) (set : Bool) : Regs :=
  if set then { r with f := r.f ||| flag.mask }
  else { r with f := r.f &&& (0xff ^^^ flag.mask) }

/-- Tests a flag bit (`Regs::get_flag`). -/
def Regs.get_flag (r : Regs) (flag : Flag) : Bool :=
  (r.f &&& flag.mask) != 0

/-! ## Opcode table (`src/cpu/opcode.rs`, modelled) -/

/-- Opcode table entry: the raw byte and its `(base, alternate)` cycle-cost
pair, mirroring the fields `cpu.rs` uses (`opcode.ncycles.0` / `.1` and the
bit-field accessors below). -/
structure Opcode where
  byte : Nat
  ncycles : Nat × Nat
deriving DecidableEq

/-- Bits 6-7 of the opcode byte (spec: canonical x/y/z/p/q decomposition). -/
def Opcode.x (o : Opcode) : Nat := (o.byte >>> 6) &&& 0b11

/-- Bits 3-5 of the opcode byte. -/
def Opcode.y (o : Opcode) : Nat := (o.byte >>> 3) &&& 0b111

/-- Bits 0-2 of the opcode byte. -/
def Opcode.z (o : Opcode) : Nat := o.byte &&& 0b111

/-- Bits 4-5 of the opcode byte (`y >> 1`). -/
def Opcode.p (o : Opcode) : Nat := o.y >>> 1

/-- Bit 3 of the opcode byte (`y & 1`). -/
def Opcode.q (o : Opcode) : Nat := o.y &&& 1

/-- Whether an un-prefixed byte has assigned behavior: these are exactly the
`(x, y, z, p, q)` patterns of the dispatch arms in `Cpu::_run_opcode_un`. -/
def handled_un (b : Nat) : Bool :=
  let x := (b >>> 6) &&& 0b11
  let y := (b >>> 3) &&& 0b111
  let z := b &&& 0b111
  let p := y >>> 1
  let q := y &&& 1
  decide (
    (x = 0 ∧ z = 1 ∧ q = 0) ∨
    (x = 0 ∧ z = 2 ∧ p = 0 ∧ q = 1) ∨
    (x = 0 ∧ z = 2 ∧ p = 1 ∧ q = 1) ∨
    (x = 0 ∧ z = 2 ∧ p = 2 ∧ q = 0) ∨
    (x = 0 ∧ z = 2 ∧ p = 3 ∧ q = 0) ∨
    (x = 0 ∧ z = 3 ∧ q = 0) ∨
    (x = 0 ∧ z = 4) ∨
    (x = 0 ∧ z = 5) ∨
    (x = 0 ∧ z = 6) ∨
    (x = 0 ∧ y = 2 ∧ z = 7) ∨
    (x = 0 ∧ 4 ≤ y ∧ z = 0) ∨
    (x = 1) ∨
    (x = 2 ∧ y = 5) ∨
    (x = 3 ∧ z = 1 ∧ p = 0 ∧ q = 1) ∨
    (x = 3 ∧ z = 1 ∧ q = 0) ∨
    (x = 3 ∧ z = 5 ∧ p = 0 ∧ q = 1) ∨
    (x = 3 ∧ z = 5 ∧ q = 0) ∨
    (x = 3 ∧ y = 1 ∧ z = 3) ∨
    (x = 3 ∧ y = 4 ∧ z = 0) ∨
    (x = 3 ∧ y = 4 ∧ z = 2) ∨
    (x = 3 ∧ y = 7))

/-- Whether a cb-prefixed byte has assigned behavior: the `(x, y)` patterns of
the dispatch arms in `Cpu::_run_opcode_cb`. -/
def handled_cb (b : Nat) : Bool :=
  let x := (b >>> 6) &&& 0b11
  let y := (b >>> 3) &&& 0b111
  decide ((x = 0 ∧ y = 2) ∨ x = 1)

/-- Modelled from the spec: cycle-cost pairs of the un-prefixed entries.  The
opcode table (`src/cpu/opcode.rs`) is not among the sources at hand; the spec
fixes only that each entry carries a `(base_cycles, alt_cycles)` pair where
`alt_cycles < base_cycles` exactly for conditional jumps and `alt = base`
elsewhere.  Values are the LR35902 reference cycle counts for the covered
bytes. -/
def ncycles_un (b : Nat) : Nat × Nat :=
  let x := (b >>> 6) &&& 0b11
  let y := (b >>> 3) &&& 0b111
  let z := b &&& 0b111
  if x = 0 ∧ z = 1 then (12, 12)
  else if x = 0 ∧ z = 2 then (8, 8)
  else if x = 0 ∧ z = 3 then (8, 8)
  else if x = 0 ∧ (z = 4 ∨ z = 5) then (if y = 6 then (12, 12) else (4, 4))
  else if x = 0 ∧ z = 6 then (if y = 6 then (12, 12) else (8, 8))
  else if x = 0 ∧ z = 7 then (4, 4)
  else if x = 0 ∧ z = 0 then (12, 8)
  else if x = 1 ∧ y = 6 ∧ z = 6 then (4, 4)
  else if x = 1 ∨ x = 2 then (if y = 6 ∨ z = 6 then (8, 8) else (4, 4))
  else if x = 3 ∧ z = 1 ∧ y = 1 then (16, 16)
  else if x = 3 ∧ z = 1 then (12, 12)
  else if x = 3 ∧ z = 5 ∧ y = 1 then (24, 24)
  else if x = 3 ∧ z = 5 then (16, 16)
  else if x = 3 ∧ z = 3 then (4, 4)
  else if x = 3 ∧ y = 4 ∧ z = 0 then (12, 12)
  else if x = 3 ∧ y = 4 ∧ z = 2 then (8, 8)
  else (8, 8)

/-- Modelled from the spec: cycle-cost pairs of the cb-prefixed entries
(LR35902 reference values; no cb-prefixed instruction is conditional, so
`alt = base`). -/
def ncycles_cb (b : Nat) : Nat × Nat :=
  let z := b &&& 0b111
  if z = 6 then (16, 16) else (8, 8)

/-- Modelled from the spec: the opcode-table lookup `Opcode::from(is_cb, byte)`
of the missing `src/cpu/opcode.rs`.  Per spec §4.1 it returns the matching
immutable entry exactly when the byte has assigned behavior in the requested
space — the dispatch coverage of `cpu.rs` — and absent (`none`) for genuinely
unimplemented or illegal encodings, which callers must treat as a fatal decode
failure. -/
def Opcode.decode (is_cb : Bool) (b : Nat) : Option Opcode :=
  if is_cb then
    if handled_cb b then some ⟨b, ncycles_cb b⟩ else none
  else
    if handled_un b then some ⟨b, ncycles_un b⟩ else none

/-! ## CPU execution engine (`src/cpu/cpu.rs`) -/

/-- CPU state (`struct Cpu`). -/
structure Cpu where
  is_halted : Bool
  next_opcode_is_cb : Bool
  curr_opcode : Option Opcode
  regs : Regs

/-- Creates a new CPU object (`Cpu::new`). -/
def Cpu.new : Cpu :=
  { is_halted := false
    next_opcode_is_cb := false
    curr_opcode := none
    regs := {} }

/-- State dumped by `Cpu::_panic` before the process terminates: the register
file, the pending secondary-space flag, the current decode result, and the
panic reason. -/
structure FatalDump where
  regs : Regs
  next_opcode_is_cb : Bool
  curr_opcode : Option Opcode
  reason : String
deriving DecidableEq

/-- Outcome of one CPU step (or of one opcode dispatch).  `ok` carries the
updated CPU, the updated memory, and the elapsed cycle count returned to the
caller; `fatal` embeds the process-terminating `Cpu::_panic` path together
with the state it dumps; `overflow` embeds a Rust checked-arithmetic abort
(unchecked `u16` `+` overflowing inside a memory word access). -/
inductive StepResult
  | ok (cpu : Cpu) (mmu : Mmu) (ncycles : Nat)
  | fatal (dump : FatalDump)
  | overflow

/-- Fetches the next byte from PC and increments PC (`Cpu::_fetch_next_byte`);
`wrapping_add` on `u16` is `(pc + 1) % 65536`. -/
def Cpu.fetch_next_byte (c : Cpu) (m : Mmu) : Nat × Cpu :=
  (m.read_byte c.regs.pc,
   { c with regs := { c.regs with pc := (c.regs.pc + 1) % 65536 } })

/-- Fetches the next word from PC and increments PC by 2
(`Cpu::_fetch_next_word`); `none` propagates the `read_word` overflow abort. -/
def Cpu.fetch_next_word (c : Cpu) (m : Mmu) : Option (Nat × Cpu) :=
  (m.read_word c.regs.pc).map fun w =>
    (w, { c with regs := { c.regs with pc := (c.regs.pc + 2) % 65536 } })

/-- Rotate-left-through-carry of a byte, updating flags and returning the
rotated value (`Cpu::_alu_rl`); `u8` shift-left truncates to 8 bits. -/
def Cpu.alu_rl (c : Cpu) (d8 : Nat) : Cpu × Nat :=
  let cy := ((d8 &&& 0x80) >>> 7) = 0x01
  let r := ((d8 <<< 1) % 256) + (if c.regs.get_flag .C then 1 else 0)
  let regs := ((((c.regs.set_flag .Z (r == 0x00)).set_flag .N false).set_flag
    .C cy).set_flag .H false)
  ({ c with regs := regs }, r)

/-- Subtraction into A with flag updates (`Cpu::_alu_sub`); `wrapping_sub` on
`u8` values is subtraction mod 256. -/
def Cpu.alu_sub (c : Cpu) (d8 : Nat) (use_carry : Bool) : Cpu :=
  let cy := if use_carry && c.regs.get_flag .C then 1 else 0
  let a := c.regs.a
  let r := (a + 512 - d8 - cy) % 256
  let regs₀ := { c.regs with a := r }
  let regs := (((regs₀.set_flag .Z (r == 0)).set_flag
    .H (decide ((a &&& 0x0f) < ((d8 &&& 0x0f) + cy)))).set_flag
    .N true).set_flag .C (decide (a < d8 + cy))
  { c with regs := regs }

/-- CP is basically `a - n` but the result is discarded (`Cpu::_alu_cp`). -/
def Cpu.alu_cp (c : Cpu) (d8 : Nat) : Cpu :=
  let prev_a := c.regs.a
  let c₁ := c.alu_sub d8 false
  { c₁ with regs := { c₁.regs with a := prev_a } }

/-- XOR into A with flag updates (`Cpu::_alu_xor`). -/
def Cpu.alu_xor (c : Cpu) (d8 : Nat) : Cpu :=
  let a := c.regs.a ^^^ d8
  let regs₀ := { c.regs with a := a }
  let regs := (((regs₀.set_flag .Z (a == 0)).set_flag .N false).set_flag
    .H false).set_flag .C false
  { c with regs := regs }

/-- Evaluates condition code `cc` against the flags (`Cpu::_get_res_from_cc`).
The source panics on `cc > 3`; every call site passes `y - 4` with `y ≤ 7`, so
that branch is unreachable and is embedded as `false`. -/
def Cpu.get_res_from_cc (c : Cpu) (cc : Nat) : Bool :=
  match cc with
  | 0 => c.regs.get_flag .Z == false
  | 1 => c.regs.get_flag .Z != false
  | 2 => c.regs.get_flag .C == false
  | 3 => c.regs.get_flag .C != false
  | _ => false

/-- Reads 8-bit register operand `r` (`Cpu::_get_r8_from_r`); index 6 denotes
memory at HL.  The source panics on `r > 7`; `r` is a 3-bit field, so that
branch is unreachable and is embedded as `0`. -/
def Cpu.get_r8_from_r (c : Cpu) (m : Mmu) (r : Nat) : Nat :=
  match r with
  | 0 => c.regs.b
  | 1 => c.regs.c
  | 2 => c.regs.d
  | 3 => c.regs.e
  | 4 => c.regs.h
  | 5 => c.regs.l
  | 6 => m.read_byte c.regs.hl
  | 7 => c.regs.a
  | _ => 0

/-- Reads 16-bit register-pair operand `rp` from the BC/DE/HL/SP bank
(`Cpu::_get_r16_from_rp`).  The source panics on `rp > 3`; `p` is a 2-bit
field, so that branch is unreachable and is embedded as `0`. -/
def Cpu.get_r16_from_rp (c : Cpu) (rp : Nat) : Nat :=
  match rp with
  | 0 => c.regs.bc
  | 1 => c.regs.de
  | 2 => c.regs.hl
  | 3 => c.regs.sp
  | _ => 0

/-- Reads 16-bit register-pair operand `rp2` from the BC/DE/HL/AF bank
(`Cpu::_get_r16_from_rp2`); unreachable index embedded as `0`. -/
def Cpu.get_r16_from_rp2 (c : Cpu) (rp2 : Nat) : Nat :=
  match rp2 with
  | 0 => c.regs.bc
  | 1 => c.regs.de
  | 2 => c.regs.hl
  | 3 => c.regs.af
  | _ => 0

/-- Writes 8-bit register operand `r` (`Cpu::_set_r8_from_r`); index 6 writes
memory at HL; unreachable index leaves the state unchanged. -/
def Cpu.set_r8_from_r (c : Cpu) (m : Mmu) (r val : Nat) : Cpu × Mmu :=
  match r with
  | 0 => ({ c with regs := { c.regs with b := val } }, m)
  | 1 => ({ c with regs := { c.regs with c := val } }, m)
  | 2 => ({ c with regs := { c.regs with d := val } }, m)
  | 3 => ({ c with regs := { c.regs with e := val } }, m)
  | 4 => ({ c with regs := { c.regs with h := val } }, m)
  | 5 => ({ c with regs := { c.regs with l := val } }, m)
  | 6 => (c, m.write_byte c.regs.hl val)
  | 7 => ({ c with regs := { c.regs with a := val } }, m)
  | _ => (c, m)

/-- Writes 16-bit register-pair operand `rp` in the BC/DE/HL/SP bank
(`Cpu::_set_r16_from_rp`); unreachable index leaves the state unchanged. -/
def Cpu.set_r16_from_rp (c : Cpu) (rp val : Nat) : Cpu :=
  match rp with
  | 0 => { c with regs := c.regs.set_bc val }
  | 1 => { c with regs := c.regs.set_de val }
  | 2 => { c with regs := c.regs.set_hl val }
  | 3 => { c with regs := { c.regs with sp := val } }
  | _ => c

/-- Writes 16-bit register-pair operand `rp2` in the BC/DE/HL/AF bank
(`Cpu::_set_r16_from_rp2`); unreachable index leaves the state unchanged. -/
def Cpu.set_r16_from_rp2 (c : Cpu) (rp2 val : Nat) : Cpu :=
  match rp2 with
  | 0 => { c with regs := c.regs.set_bc val }
  | 1 => { c with regs := c.regs.set_de val }
  | 2 => { c with regs := c.regs.set_hl val }
  | 3 => { c with regs := c.regs.set_af val }
  | _ => c

/-- Pushes a word onto the stack (`Cpu::_stack_push`): SP is decremented by 2
(wrapping) before the word write; `none` propagates the `write_word` overflow
abort. -/
def Cpu.stack_push (c : Cpu) (m : Mmu) (word : Nat) : Option (Cpu × Mmu) :=
  let sp := (c.regs.sp + 65534) % 65536
  let c₁ := { c with regs := { c.regs with sp := sp } }
  (m.write_word sp word).map fun m₁ => (c₁, m₁)

/-- Pops a word from the stack (`Cpu::_stack_pop`): the word is read at SP,
then SP is incremented by 2 (wrapping); `none` propagates the `read_word`
overflow abort. -/
def Cpu.stack_pop (c : Cpu) (m : Mmu) : Option (Nat × Cpu) :=
  (m.read_word c.regs.sp).map fun w =>
    (w, { c with regs := { c.regs with sp := (c.regs.sp + 2) % 65536 } })

/-- Runs a cb-prefixed opcode (`Cpu::_run_opcode_cb`).  The dispatch arms
appear in source order; the catch-all embeds `self._panic("cb-prefixed opcode
not implemented")`. -/
def Cpu.run_opcode_cb (c : Cpu) (m : Mmu) (o : Opcode) : StepResult :=
  if o.x = 0 ∧ o.y = 2 then       -- RL r[z]
    let rn := c.alu_rl (c.get_r8_from_r m o.z)
    let cm := rn.1.set_r8_from_r m o.z rn.2
    .ok cm.1 cm.2 o.ncycles.1
  else if o.x = 1 then            -- BIT y, r[z]
    let r := c.get_r8_from_r m o.z
    let regs := ((c.regs.set_flag .Z ((r &&& (1 <<< o.y)) == 0)).set_flag
      .N false).set_flag .H true
    .ok { c with regs := regs } m o.ncycles.1
  else
    .fatal ⟨c.regs, c.next_opcode_is_cb, c.curr_opcode,
      "cb-prefixed opcode not implemented"⟩

/-- Runs an un-prefixed opcode (`Cpu::_run_opcode_un`).  The dispatch arms
appear in source order (the order matters: e.g. HALT precedes the generic
`LD r[y], r[z]` arm); the catch-all embeds `self._panic("un-prefixed opcode
not implemented")`. -/
def Cpu.run_opcode_un (c : Cpu) (m : Mmu) (o : Opcode) : StepResult :=
  if o.x = 0 ∧ o.z = 1 ∧ o.q = 0 then                  -- LD rp[p], nn
    match c.fetch_next_word m with
    | none => .overflow
    | some (nn, c₁) => .ok (c₁.set_r16_from_rp o.p nn) m o.ncycles.1
  else if o.x = 0 ∧ o.z = 2 ∧ o.p = 0 ∧ o.q = 1 then   -- LD A, (BC)
    .ok { c with regs := { c.regs with a := m.read_byte c.regs.bc } } m
      o.ncycles.1
  else if o.x = 0 ∧ o.z = 2 ∧ o.p = 1 ∧ o.q = 1 then   -- LD A, (DE)
    .ok { c with regs := { c.regs with a := m.read_byte c.regs.de } } m
      o.ncycles.1
  else if o.x = 0 ∧ o.z = 2 ∧ o.p = 2 ∧ o.q = 0 then   -- LD (HL+), A
    .ok { c with regs := c.regs.inc_hl } (m.write_byte c.regs.hl c.regs.a)
      o.ncycles.1
  else if o.x = 0 ∧ o.z = 2 ∧ o.p = 3 ∧ o.q = 0 then   -- LD (HL-), A
    .ok { c with regs := c.regs.dec_hl } (m.write_byte c.regs.hl c.regs.a)
      o.ncycles.1
  else if o.x = 0 ∧ o.z = 3 ∧ o.q = 0 then             -- INC rp[p]
    let nn := c.get_r16_from_rp o.p
    let rp := (nn + 1) % 65536
    .ok (c.set_r16_from_rp o.p rp) m o.ncycles.1
  else if o.x = 0 ∧ o.z = 4 then                       -- INC r[y]
    let n := c.get_r8_from_r m o.y
    let r := (n + 1) % 256
    let cm := c.set_r8_from_r m o.y r
    let regs := ((cm.1.regs.set_flag .Z (r == 0)).set_flag .N false).set_flag
      .H ((n &&& 0x0f) == 0x0f)
    .ok { cm.1 with regs := regs } cm.2 o.ncycles.1
  else if o.x = 0 ∧ o.z = 5 then                       -- DEC r[y]
    let n := c.get_r8_from_r m o.y
    let r := (n + 255) % 256
    let cm := c.set_r8_from_r m o.y r
    let regs := ((cm.1.regs.set_flag .Z (r == 0)).set_flag .N true).set_flag
      .H ((n &&& 0x0f) == 0x00)
    .ok { cm.1 with regs := regs } cm.2 o.ncycles.1
  else if o.x = 0 ∧ o.z = 6 then                       -- LD r[y], n
    let nc := c.fetch_next_byte m
    let cm := nc.2.set_r8_from_r m o.y nc.1
    .ok cm.1 cm.2 o.ncycles.1
  else if o.x = 0 ∧ o.y = 2 ∧ o.z = 7 then             -- RLA
    let rn := c.alu_rl c.regs.a
    let cm := rn.1.set_r8_from_r m o.z rn.2
    .ok cm.1 cm.2 o.ncycles.1
  else if o.x = 0 ∧ 4 ≤ o.y ∧ o.z = 0 then             -- JR cc[y-4], d
    let dc := c.fetch_next_byte m
    let d8 := dc.1
    let c₁ := dc.2
    let pc := (((c₁.regs.pc : Int) +
      (if d8 < 128 then (d8 : Int) else (d8 : Int) - 256)) % 65536).toNat
    if c₁.get_res_from_cc (o.y - 4) then
      .ok { c₁ with regs := { c₁.regs with pc := pc } } m o.ncycles.1
    else
      .ok c₁ m o.ncycles.2
  else if o.x = 1 ∧ o.y = 6 ∧ o.z = 6 then             -- HALT
    .ok { c with is_halted := true } m o.ncycles.1
  else if o.x = 1 then                                 -- LD r[y], r[z]
    let r := c.get_r8_from_r m o.z
    let cm := c.set_r8_from_r m o.y r
    .ok cm.1 cm.2 o.ncycles.1
  else if o.x = 2 ∧ o.y = 5 then                       -- XOR r[z]
    let r := c.get_r8_from_r m o.z
    .ok (c.alu_xor r) m o.ncycles.1
  else if o.x = 3 ∧ o.z = 1 ∧ o.p = 0 ∧ o.q = 1 then   -- RET
    match c.stack_pop m with
    | none => .overflow
    | some (w, c₁) =>
      .ok { c₁ with regs := { c₁.regs with pc := w } } m o.ncycles.1
  else if o.x = 3 ∧ o.z = 1 ∧ o.q = 0 then             -- POP rp2[p]
    match c.stack_pop m with
    | none => .overflow
    | some (nn, c₁) => .ok (c₁.set_r16_from_rp2 o.p nn) m o.ncycles.1
  else if o.x = 3 ∧ o.z = 5 ∧ o.p = 0 ∧ o.q = 1 then   -- CALL nn
    match c.fetch_next_word m with
    | none => .overflow
    | some (nn, c₁) =>
      match c₁.stack_push m c₁.regs.pc with
      | none => .overflow
      | some (c₂, m₂) =>
        .ok { c₂ with regs := { c₂.regs with pc := nn } } m₂ o.ncycles.1
  else if o.x = 3 ∧ o.z = 5 ∧ o.q = 0 then             -- PUSH rp2[p]
    let nn := c.get_r16_from_rp2 o.p
    match c.stack_push m nn with
    | none => .overflow
    | some (c₁, m₁) => .ok c₁ m₁ o.ncycles.1
  else if o.x = 3 ∧ o.y = 1 ∧ o.z = 3 then             -- CB prefix
    .ok { c with next_opcode_is_cb := true } m o.ncycles.1
  else if o.x = 3 ∧ o.y = 4 ∧ o.z = 0 then             -- LD (0xff00 + n), A
    let nc := c.fetch_next_byte m
    .ok nc.2 (m.write_byte (0xff00 + nc.1) c.regs.a) o.ncycles.1
  else if o.x = 3 ∧ o.y = 4 ∧ o.z = 2 then             -- LD (0xff00 + C), A
    .ok c (m.write_byte (0xff00 + c.regs.c) c.regs.a) o.ncycles.1
  else if o.x = 3 ∧ o.y = 7 then                       -- CP d8
    let nc := c.fetch_next_byte m
    .ok (nc.2.alu_cp nc.1) m o.ncycles.1
  else
    .fatal ⟨c.regs, c.next_opcode_is_cb, c.curr_opcode,
      "un-prefixed opcode not implemented"⟩

/-- Steps the CPU through a fetch/decode/execute cycle (`Cpu::step`, sans the
logging call).  While halted, the step does nothing and returns 1 cycle.
Otherwise the next byte is fetched (PC is incremented), looked up in the
active opcode space, and dispatched; a failed lookup embeds
`self._panic("got an invalid opcode")` with the state dumped at that point. -/
def Cpu.step (c : Cpu) (m : Mmu) : StepResult :=
  if c.is_halted then .ok c m 1
  else
    let bc := c.fetch_next_byte m
    let c₁ := { bc.2 with curr_opcode := Opcode.decode c.next_opcode_is_cb bc.1 }
    match c₁.curr_opcode with
    | none =>
      .fatal ⟨c₁.regs, c₁.next_opcode_is_cb, c₁.curr_opcode,
        "got an invalid opcode"⟩
    | some o =>
      if c₁.next_opcode_is_cb then
        Cpu.run_opcode_cb { c₁ with next_opcode_is_cb := false } m o
      else
        c₁.run_opcode_un m o

/-- Runs two un-prefixed opcodes in sequence through the dispatcher (the style
of the in-tree unit tests, which call `_run_opcode_un` directly); a fatal or
overflow outcome of the first opcode short-circuits. -/
def Cpu.run2 (c : Cpu) (m : Mmu) (o₁ o₂ : Opcode) : StepResult :=
  match c.run_opcode_un m o₁ with
  | .ok c₁ m₁ _ => c₁.run_opcode_un m₁ o₂
  | r => r

/-- Addresses backed by a writable region of the interconnect: video RAM,
working RAM, the echo range, or zero-page RAM (the address map of
`mmu.rs`). -/
abbrev writableRange (a : Nat) : Prop :=
  (0x8000 ≤ a ∧ a ≤ 0x9fff) ∨ (0xc000 ≤ a ∧ a ≤ 0xdfff) ∨
  (0xe000 ≤ a ∧ a ≤ 0xfdff) ∨ (0xff80 ≤ a ∧ a ≤ 0xfffe)

/-- Well-formed register file: every 8-bit field holds a byte and the 16-bit
fields hold words, as the `u8`/`u16` typing of the source guarantees. -/
abbrev Regs.wf (r : Regs) : Prop :=
  r.a < 256 ∧ r.f < 256 ∧ r.b < 256 ∧ r.c < 256 ∧ r.d < 256 ∧ r.e < 256 ∧
  r.h < 256 ∧ r.l < 256 ∧ r.pc < 65536 ∧ r.sp < 65536

/-! ## Auxiliary arithmetic lemmas -/

theorem and_255_eq_mod (n : Nat) : n &&& 255 = n % 256 := by
  have h := Nat.and_pow_two_sub_one_eq_mod n 8
  norm_num at h
  exact h

theorem and_15_eq_mod (n : Nat) : n &&& 15 = n % 16 := by
  have h := Nat.and_pow_two_sub_one_eq_mod n 4
  norm_num at h
  exact h

theorem and_ff00_shiftRight (x : Nat) : (x &&& 0xff00) >>> 8 = (x >>> 8) &&& 255 := by
  have hm : ∀ j, Nat.testBit 0xff00 (8 + j) = Nat.testBit 255 j := by
    intro j
    rw [show (0xff00 : Nat) = 255 <<< 8 from by decide, Nat.testBit_shiftLeft]
    simp [Nat.add_sub_cancel_left, Nat.le_add_right]
  apply Nat.eq_of_testBit_eq
  intro i
  simp only [Nat.testBit_shiftRight, Nat.testBit_and]
  rw [hm i]

theorem shiftLeft8_or_eq_add (a b : Nat) (hb : b < 256) :
    (a <<< 8) ||| b = (a <<< 8) + b := by
  rw [Nat.shiftLeft_eq]
  have h := Nat.mul_add_lt_is_or (i := 8) (b := b) (by simpa using hb) a
  rw [Nat.mul_comm] at h
  exact h.symm

theorem shiftLeft8_and_small (a mask : Nat) (hm : mask < 256) :
    (a <<< 8) &&& mask = 0 := by
  apply Nat.eq_of_testBit_eq
  intro i
  simp only [Nat.testBit_and, Nat.testBit_shiftLeft, Nat.zero_testBit]
  rcases Nat.lt_or_ge i 8 with h | h
  · simp [Nat.not_le.2 h]
  · have hz : mask.testBit i = false :=
      Nat.testBit_lt_two_pow (lt_of_lt_of_le hm (by
        calc (256 : Nat) = 2 ^ 8 := by norm_num
        _ ≤ 2 ^ i := Nat.pow_le_pow_right (by norm_num) h))
    simp [hz]

/-! ## Claim theorems -/

/-- C10: the claim requires `Gpu::step` to accumulate elapsed cycles and walk
the OAM-Scan → Drawing → HBlank / VBlank mode sequence, with the current mode
eventually leaving its initial OAM-Scan value for positive cycle inputs.  The
source `Gpu::step` body is a bare `// TODO.` plus a log statement, directly
contradicting the mode-transition state diagram documented on the `Mode` enum
in the same file: the GPU state (hence the current mode and any line/cycle
bookkeeping) is invariant under every step call, so no sequence of step calls
ever changes the mode. -/
theorem C10_gpu_step_is_identity (g : Gpu) (n : Nat) : Gpu.step g n = g := rfl

/-- C3: the claimed totality of the word operations fails at address `0xffff`:
`read_word` and `write_word` both compute `addr + 1` with unchecked `u16`
addition (everywhere else the sources use `wrapping_add`/`wrapping_sub` when
wrapping is intended), which overflows at `0xffff` and panics under Rust's
checked arithmetic instead of completing the access. -/
theorem C3_word_ops_abort_at_ffff :
    Mmu.new.read_word 0xffff = none ∧ Mmu.new.write_word 0xffff 0x1234 = none :=
  ⟨rfl, rfl⟩

/-- C1: decoding byte `0x00` must yield an entry whose execution is a pure
no-op that advances PC by 1.  In the code the dispatcher of
`Cpu::_run_opcode_un` has no arm for `(x,y,z,p,q) = (0,0,0,0,0)` and the
modelled table assigns the byte no entry, so stepping a non-halted CPU whose
PC points at a `0x00` byte (here: fresh working RAM) terminates with the
`"got an invalid opcode"` panic instead of performing the no-op. -/
theorem C1_nop_byte_is_fatal :
    Cpu.step { Cpu.new with regs := { pc := 0xc000 } } Mmu.new =
      .fatal ⟨{ pc := 0xc001 }, false, none, "got an invalid opcode"⟩ ∧
    Opcode.decode false 0x00 = none :=
  ⟨rfl, rfl⟩

/-- C2 counterexample: byte `0xf4` is an illegal LR35902 encoding with no
table entry, so the decode-failure path of `Cpu::step` fires; the fatal dump
it produces carries the register state and the pending secondary-space flag
but records `None` as the current opcode — the offending opcode byte `0xf4`
appears nowhere in the reported state, refuting the claim that every
unhandled byte is reported in the dump. -/
theorem C2_counterexample :
    Cpu.step { Cpu.new with regs := { pc := 0xc000 } }
        (Mmu.new.write_byte 0xc000 0xf4) =
      .fatal ⟨{ pc := 0xc001 }, false, none, "got an invalid opcode"⟩ ∧
    (FatalDump.curr_opcode
      ⟨{ pc := 0xc001 }, false, none, "got an invalid opcode"⟩) = none :=
  ⟨rfl, rfl⟩

/-- C2 (amended): a fetched byte with no table entry in the active space is a
fatal decode failure: `step` terminates with a dump carrying the full register
state (PC already advanced past the byte) and the pending secondary-space
flag, and never executes the byte as a no-op nor retries; the dump records the
absent table entry (`None`) rather than the offending byte itself. -/
theorem C2_unhandled_byte_is_fatal (c : Cpu) (m : Mmu)
    (hh : c.is_halted = false)
    (hd : Opcode.decode c.next_opcode_is_cb (m.read_byte c.regs.pc) = none) :
    Cpu.step c m =
      .fatal ⟨{ c.regs with pc := (c.regs.pc + 1) % 65536 },
        c.next_opcode_is_cb, none, "got an invalid opcode"⟩ := by
  unfold Cpu.step Cpu.fetch_next_byte
  simp [hh, hd]

theorem C2_witness :
    Cpu.step { Cpu.new with regs := { pc := 0xd000 } } Mmu.new =
      .fatal ⟨{ pc := 0xd001 }, false, none, "got an invalid opcode"⟩ :=
  C2_unhandled_byte_is_fatal _ _ rfl rfl

/-- C6: echo-RAM aliasing.  For every state, every echo address
`e ∈ [0xe000, 0xfdff]` with working-RAM partner `w = 0xc000 + (e - 0xe000)`,
and every byte value, a write through either alias is read back through the
other: both ranges route to the same `wram` storage at the same offset. -/
theorem C6_echo_aliasing (m : Mmu) (e v : Nat)
    (he₁ : 0xe000 ≤ e) (he₂ : e ≤ 0xfdff) (hv : v < 256) :
    (m.write_byte e v).read_byte (0xc000 + (e - 0xe000)) = v ∧
    (m.write_byte (0xc000 + (e - 0xe000)) v).read_byte e = v := by
  constructor
  · rw [Mmu.write_byte, Mmu.read_byte,
      if_neg (by omega), if_neg (by omega), if_pos (by omega),
      if_neg (by omega), if_neg (by omega), if_pos (by omega),
      show 0xc000 + (e - 0xe000) - 0xc000 = e - 0xe000 from by omega]
    simp
  · rw [Mmu.write_byte, Mmu.read_byte,
      if_neg (by omega), if_neg (by omega), if_neg (by omega),
      if_pos (by omega), if_neg (by omega), if_pos (by omega),
      show 0xc000 + (e - 0xe000) - 0xc000 = e - 0xe000 from by omega]
    simp

/-- C9: halted-CPU frame property and the HALT transition.  While halted,
`step` performs no fetch and changes nothing — it returns the exact same CPU
and memory states with the minimum cycle cost of 1.  Executing the HALT
instruction (byte `0x76`, dispatch arm `(x,y,z) = (1,6,6)`) from the running
state sets the halted flag, leaving memory untouched. -/
theorem C9_halt_behavior :
    (∀ (c : Cpu) (m : Mmu), c.is_halted = true → Cpu.step c m = .ok c m 1) ∧
    (∀ (c : Cpu) (m : Mmu), c.is_halted = false → c.next_opcode_is_cb = false →
      m.read_byte c.regs.pc = 0x76 →
      Cpu.step c m =
        .ok { c with is_halted := true,
                     curr_opcode := some ⟨0x76, (4, 4)⟩,
                     regs := { c.regs with pc := (c.regs.pc + 1) % 65536 } } m 4) := by
  constructor
  · intro c m hh
    rw [Cpu.step, if_pos hh]
  · intro c m hh hcb hb
    rw [Cpu.step, if_neg (by simp [hh])]
    simp only [Cpu.fetch_next_byte, hb, hcb]
    simp +decide [Opcode.decode, handled_un, ncycles_un, Cpu.run_opcode_un,
      Opcode.x, Opcode.y, Opcode.z, Opcode.p, Opcode.q]

theorem C9_witness :
    Cpu.step { Cpu.new with is_halted := true } Mmu.new =
      .ok { Cpu.new with is_halted := true } Mmu.new 1 ∧
    Cpu.step { Cpu.new with regs := { pc := 0xc000 } }
        (Mmu.new.write_byte 0xc000 0x76) =
      .ok { Cpu.new with is_halted := true,
                         curr_opcode := some ⟨0x76, (4, 4)⟩,
                         regs := { pc := 0xc001 } }
        (Mmu.new.write_byte 0xc000 0x76) 4 :=
  ⟨C9_halt_behavior.1 _ _ rfl, C9_halt_behavior.2 _ _ rfl rfl (by decide)⟩

theorem write_byte_keeps_bios_flag (m : Mmu) (a v : Nat) :
    (m.write_byte a v).is_bios_mapped = m.is_bios_mapped := by
  rw [Mmu.write_byte]
  split_ifs <;> rfl

theorem write_word_keeps_bios_flag (m : Mmu) (a v : Nat) :
    ∀ m', m.write_word a v = some m' → m'.is_bios_mapped = m.is_bios_mapped := by
  rw [Mmu.write_word]
  split_ifs
  · exact fun m' h => absurd h (by simp)
  · intro m' h
    obtain rfl := Option.some.inj h
    rw [write_byte_keeps_bios_flag, write_byte_keeps_bios_flag]

theorem applyOps_keeps_unmapped (ops : List MmuOp) :
    ∀ (m : Mmu), m.is_bios_mapped = false →
      ∀ m', applyOps m ops = some m' → m'.is_bios_mapped = false := by
  induction ops with
  | nil =>
    intro m hm m' h
    obtain rfl := Option.some.inj h
    exact hm
  | cons op ops ih =>
    intro m hm m' h
    rw [applyOps] at h
    cases hop : applyOp m op with
    | none => rw [hop] at h; exact Option.noConfusion h
    | some m₁ =>
      rw [hop] at h
      refine ih m₁ ?_ m' h
      cases op with
      | write_b a v =>
        obtain rfl := Option.some.inj hop
        rw [write_byte_keeps_bios_flag]
        exact hm
      | write_w a v =>
        rw [write_word_keeps_bios_flag m a v m₁ hop]
        exact hm
      | unmap =>
        obtain rfl := Option.some.inj hop
        rfl

/-- C7: overlay (BIOS) lifecycle.  On a fresh interconnect, address `0x00`
reads the fixed first boot-overlay byte (`0x31`); after `unmap_bios`, every
address in the former overlay range `0x0000-0x00ff` reads `0x00` (the range
falls through to the unbacked arm); and no sequence of mutating interconnect
operations ever sets the overlay flag again once it is cleared. -/
theorem C7_overlay_lifecycle :
    Mmu.new.read_byte 0x00 = 0x31 ∧
    (∀ (m : Mmu) (a : Nat), a ≤ 0xff → (m.unmap_bios).read_byte a = 0x00) ∧
    (∀ (ops : List MmuOp) (m : Mmu) (m' : Mmu),
      applyOps m.unmap_bios ops = some m' → m'.is_bios_mapped = false) := by
  refine ⟨rfl, ?_, ?_⟩
  · intro m a ha
    rw [Mmu.read_byte,
      if_neg (by rintro ⟨hb, -⟩; exact Bool.noConfusion hb),
      if_neg (by omega), if_neg (by omega), if_neg (by omega),
      if_neg (by omega)]
  · intro ops m m' h
    exact applyOps_keeps_unmapped ops m.unmap_bios rfl m' h

theorem C7_witness :
    (Mmu.new.unmap_bios).read_byte 0x42 = 0x00 ∧
    (∀ m', applyOps Mmu.new.unmap_bios [MmuOp.write_b 0xc000 7, MmuOp.unmap,
        MmuOp.write_w 0xff80 0x1234] = some m' → m'.is_bios_mapped = false) :=
  ⟨C7_overlay_lifecycle.2.1 Mmu.new 0x42 (by omega),
   fun m' h => C7_overlay_lifecycle.2.2 _ Mmu.new m' h⟩

theorem C6_witness :
    ((Mmu.new.write_byte 0xe123 0xab).read_byte 0xc123 = 0xab) ∧
    ((Mmu.new.write_byte 0xc123 0xcd).read_byte 0xe123 = 0xcd) := by
  have h := C6_echo_aliasing Mmu.new 0xe123 0xab (by decide) (by decide) (by decide)
  have h' := C6_echo_aliasing Mmu.new 0xe123 0xcd (by decide) (by decide) (by decide)
  exact ⟨h.1, h'.2⟩

/-- C4: relative conditional jump semantics and cycle accounting, at the
`step` level.  With PC pointing at a `JR cc[y-4], d` byte (`0x20 + 8*cc`, the
`(x, 4..=7, 0)` dispatch arm) and displacement byte `d` following it: if the
selected condition fails, PC rests where the operand fetch left it
(`pc + 2`, wrapping) and the entry's alternate (lower) cycle count 8 is
returned; if it holds, PC becomes the post-operand-fetch PC plus the signed
8-bit displacement (two's complement, mod 65536) and the base count 12 is
returned. -/
theorem C4_jr_conditional (c : Cpu) (m : Mmu) (cc d : Nat)
    (hh : c.is_halted = false) (hcb : c.next_opcode_is_cb = false)
    (hcc : cc < 4) (hd : d < 256)
    (hb : m.read_byte c.regs.pc = 0x20 + 8 * cc)
    (hd8 : m.read_byte ((c.regs.pc + 1) % 65536) = d) :
    Cpu.step c m =
      if c.get_res_from_cc cc then
        .ok { c with curr_opcode := some (Opcode.mk (0x20 + 8 * cc) (12, 8)),
                     regs := { c.regs with pc := (((c.regs.pc : Int) + 2 +
                       (if d < 128 then (d : Int) else (d : Int) - 256)) %
                         65536).toNat } } m 12
      else
        .ok { c with curr_opcode := some (Opcode.mk (0x20 + 8 * cc) (12, 8)),
                     regs := { c.regs with pc := (c.regs.pc + 2) % 65536 } } m
          8 := by
  interval_cases cc <;>
  · rw [Cpu.step, if_neg (by simp [hh])]
    simp +decide [Cpu.fetch_next_byte, hb, hcb, hd8, Opcode.decode, handled_un,
      ncycles_un, Cpu.run_opcode_un, Opcode.x, Opcode.y, Opcode.z, Opcode.p,
      Opcode.q, Cpu.get_res_from_cc, Regs.get_flag, Flag.mask]
    split_ifs <;>
      (simp only [StepResult.ok.injEq, Cpu.mk.injEq, Regs.mk.injEq, and_true,
        true_and] <;> omega)

theorem C4_witness :
    Cpu.step { Cpu.new with regs := { pc := 0xc000 } }
        ((Mmu.new.write_byte 0xc000 0x20).write_byte 0xc001 0xfe) =
      .ok { Cpu.new with curr_opcode := some (Opcode.mk 0x20 (12, 8)),
                         regs := { pc := 0xc000 } }
        ((Mmu.new.write_byte 0xc000 0x20).write_byte 0xc001 0xfe) 12 :=
  C4_jr_conditional _ _ 0 0xfe rfl rfl (by omega) (by omega) (by decide)
    (by decide)

theorem or_mask_and_mask (f m : Nat) : (f ||| m) &&& m = m := by
  apply Nat.eq_of_testBit_eq
  intro i
  simp only [Nat.testBit_and, Nat.testBit_or]
  cases hm : m.testBit i <;> simp [hm]

theorem or_mask_and_other (f m m' : Nat) (h : m &&& m' = 0) :
    (f ||| m) &&& m' = f &&& m' := by
  apply Nat.eq_of_testBit_eq
  intro i
  have h2 : (m.testBit i && m'.testBit i) = false := by
    have h3 := congrArg (fun x => Nat.testBit x i) h
    simpa [Nat.testBit_and] using h3
  simp only [Nat.testBit_and, Nat.testBit_or]
  cases hm' : m'.testBit i with
  | false => simp [hm']
  | true =>
    have hm : m.testBit i = false := by simpa [hm'] using h2
    simp [hm', hm]

theorem and_lit_zero (f a b : Nat) (h : a &&& b = 0) : f &&& (a &&& b) = 0 := by
  rw [h, Nat.and_zero]

theorem get_flag_set_flag_same (r : Regs) (fl : Flag) (b : Bool) :
    (r.set_flag fl b).get_flag fl = b := by
  cases b <;> cases fl <;>
    simp [Regs.set_flag, Regs.get_flag, Flag.mask, or_mask_and_mask,
      Nat.and_assoc] <;>
    exact and_lit_zero _ _ _ (by decide)

theorem get_flag_set_flag_other (r : Regs) (fl fl' : Flag) (b : Bool)
    (hne : fl' ≠ fl) : (r.set_flag fl b).get_flag fl' = r.get_flag fl' := by
  have hdisj : fl.mask &&& fl'.mask = 0 := by
    cases fl <;> cases fl' <;> first | exact absurd rfl hne | decide
  have hkeep : (0xff ^^^ fl.mask) &&& fl'.mask = fl'.mask := by
    cases fl <;> cases fl' <;> first | exact absurd rfl hne | decide
  cases b
  · simp only [Regs.set_flag, Bool.false_eq_true, if_false, Regs.get_flag]
    rw [Nat.and_assoc, hkeep]
  · simp only [Regs.set_flag, if_true, Regs.get_flag]
    rw [or_mask_and_other r.f fl.mask fl'.mask hdisj]


theorem set_flag_field_a (r : Regs) (fl : Flag) (b : Bool) :
    (r.set_flag fl b).a = r.a := by cases b <;> simp [Regs.set_flag]

theorem set_flag_field_b (r : Regs) (fl : Flag) (b : Bool) :
    (r.set_flag fl b).b = r.b := by cases b <;> simp [Regs.set_flag]

theorem set_flag_field_c (r : Regs) (fl : Flag) (b : Bool) :
    (r.set_flag fl b).c = r.c := by cases b <;> simp [Regs.set_flag]

theorem set_flag_field_d (r : Regs) (fl : Flag) (b : Bool) :
    (r.set_flag fl b).d = r.d := by cases b <;> simp [Regs.set_flag]

theorem set_flag_field_e (r : Regs) (fl : Flag) (b : Bool) :
    (r.set_flag fl b).e = r.e := by cases b <;> simp [Regs.set_flag]

theorem set_flag_field_h (r : Regs) (fl : Flag) (b : Bool) :
    (r.set_flag fl b).h = r.h := by cases b <;> simp [Regs.set_flag]

theorem set_flag_field_l (r : Regs) (fl : Flag) (b : Bool) :
    (r.set_flag fl b).l = r.l := by cases b <;> simp [Regs.set_flag]

/-- C5: 8-bit increment/decrement semantics and flags, for every register
operand (`y` indexes B,C,D,E,H,L,A; 6 — memory at HL — is the non-register
form).  `DEC r[y]` (byte `0x05 + 8y`) yields `v - 1` mod 256, sets Z iff the
result is 0, sets N, sets H iff the low nibble of `v` was `0x0`; `INC r[y]`
(byte `0x04 + 8y`) yields `v + 1` mod 256, sets Z iff the result is 0, clears
N, sets H iff the low nibble of `v` was `0xf`; in both cases the C flag is
unchanged. -/
theorem C5_inc_dec (c : Cpu) (m : Mmu) (y v : Nat)
    (hy : y < 8) (hy6 : y ≠ 6) (hv : v < 256)
    (hget : c.get_r8_from_r m y = v) :
    (match c.run_opcode_un m (Opcode.mk (0x05 + 8 * y) (4, 4)) with
     | .ok c' m' _ =>
        c'.get_r8_from_r m' y = (v + 255) % 256 ∧
        (c'.regs.get_flag .Z = true ↔ (v + 255) % 256 = 0) ∧
        c'.regs.get_flag .N = true ∧
        (c'.regs.get_flag .H = true ↔ v % 16 = 0) ∧
        c'.regs.get_flag .C = c.regs.get_flag .C
     | _ => False) ∧
    (match c.run_opcode_un m (Opcode.mk (0x04 + 8 * y) (4, 4)) with
     | .ok c' m' _ =>
        c'.get_r8_from_r m' y = (v + 1) % 256 ∧
        (c'.regs.get_flag .Z = true ↔ (v + 1) % 256 = 0) ∧
        c'.regs.get_flag .N = false ∧
        (c'.regs.get_flag .H = true ↔ v % 16 = 15) ∧
        c'.regs.get_flag .C = c.regs.get_flag .C
     | _ => False) := by
  interval_cases y <;>
    first
      | exact absurd rfl hy6
      | (simp only [Cpu.get_r8_from_r] at hget
         simp +decide [Cpu.run_opcode_un, Opcode.x, Opcode.y, Opcode.z,
           Opcode.p, Opcode.q, Cpu.get_r8_from_r, Cpu.set_r8_from_r, hget,
           get_flag_set_flag_same, get_flag_set_flag_other, and_15_eq_mod,
           set_flag_field_a, set_flag_field_b, set_flag_field_c,
           set_flag_field_d, set_flag_field_e, set_flag_field_h,
           set_flag_field_l]
         simp [Regs.get_flag])


theorem C5_witness :
    (match Cpu.run_opcode_un { Cpu.new with regs := { b := 5 } } Mmu.new
        (Opcode.mk (0x05 + 8 * 0) (4, 4)) with
     | .ok c' m' _ =>
        c'.get_r8_from_r m' 0 = (5 + 255) % 256 ∧
        (c'.regs.get_flag .Z = true ↔ (5 + 255) % 256 = 0) ∧
        c'.regs.get_flag .N = true ∧
        (c'.regs.get_flag .H = true ↔ 5 % 16 = 0) ∧
        c'.regs.get_flag .C =
          ({ Cpu.new with regs := { b := 5 } } : Cpu).regs.get_flag .C
     | _ => False) ∧
    (match Cpu.run_opcode_un { Cpu.new with regs := { b := 5 } } Mmu.new
        (Opcode.mk (0x04 + 8 * 0) (4, 4)) with
     | .ok c' m' _ =>
        c'.get_r8_from_r m' 0 = (5 + 1) % 256 ∧
        (c'.regs.get_flag .Z = true ↔ (5 + 1) % 256 = 0) ∧
        c'.regs.get_flag .N = false ∧
        (c'.regs.get_flag .H = true ↔ 5 % 16 = 15) ∧
        c'.regs.get_flag .C =
          ({ Cpu.new with regs := { b := 5 } } : Cpu).regs.get_flag .C
     | _ => False) :=
  C5_inc_dec { Cpu.new with regs := { b := 5 } } Mmu.new 0 5 (by omega)
    (by omega) (by omega) rfl

theorem read_byte_write_byte_same (m : Mmu) (a v : Nat) (ha : writableRange a) :
    (m.write_byte a v).read_byte a = v := by
  rcases ha with ⟨h1, h2⟩ | ⟨h1, h2⟩ | ⟨h1, h2⟩ | ⟨h1, h2⟩
  · rw [Mmu.write_byte, Mmu.read_byte,
      if_neg (by omega), if_pos (by omega), if_pos (by omega)]
    simp
  · rw [Mmu.write_byte, Mmu.read_byte,
      if_neg (by omega), if_neg (by omega), if_pos (by omega),
      if_neg (by omega), if_pos (by omega)]
    simp
  · rw [Mmu.write_byte, Mmu.read_byte,
      if_neg (by omega), if_neg (by omega), if_neg (by omega),
      if_pos (by omega), if_neg (by omega), if_neg (by omega),
      if_pos (by omega)]
    simp
  · rw [Mmu.write_byte, Mmu.read_byte,
      if_neg (by omega), if_neg (by omega), if_neg (by omega),
      if_neg (by omega), if_pos (by omega), if_neg (by omega),
      if_neg (by omega), if_neg (by omega), if_pos (by omega)]
    simp

theorem read_byte_write_byte_succ (m : Mmu) (a v : Nat) (ha : writableRange a)
    (ha1 : writableRange (a + 1)) :
    (m.write_byte (a + 1) v).read_byte a = m.read_byte a := by
  rcases ha with ⟨h1, h2⟩ | ⟨h1, h2⟩ | ⟨h1, h2⟩ | ⟨h1, h2⟩ <;>
    rcases ha1 with ⟨h3, h4⟩ | ⟨h3, h4⟩ | ⟨h3, h4⟩ | ⟨h3, h4⟩ <;>
    first
      | omega
      | (rw [Mmu.read_byte, if_neg (by omega), if_pos (by omega)]
         rw [Mmu.write_byte, if_pos (by omega)]
         dsimp only
         rw [if_neg (by omega), Mmu.read_byte, if_neg (by omega),
           if_pos (by omega)])
      | (rw [Mmu.read_byte, if_neg (by omega), if_neg (by omega),
           if_pos (by omega)]
         rw [Mmu.write_byte, if_neg (by omega), if_pos (by omega)]
         dsimp only
         rw [if_neg (by omega), Mmu.read_byte, if_neg (by omega),
           if_neg (by omega), if_pos (by omega)])
      | (rw [Mmu.read_byte, if_neg (by omega), if_neg (by omega),
           if_pos (by omega)]
         rw [Mmu.write_byte, if_neg (by omega), if_neg (by omega),
           if_pos (by omega)]
         dsimp only
         rw [if_neg (by omega), Mmu.read_byte, if_neg (by omega),
           if_neg (by omega), if_pos (by omega)])
      | (rw [Mmu.read_byte, if_neg (by omega), if_neg (by omega),
           if_neg (by omega), if_pos (by omega)]
         rw [Mmu.write_byte, if_neg (by omega), if_neg (by omega),
           if_pos (by omega)]
         dsimp only
         rw [if_neg (by omega), Mmu.read_byte, if_neg (by omega),
           if_neg (by omega), if_neg (by omega), if_pos (by omega)])
      | (rw [Mmu.read_byte, if_neg (by omega), if_neg (by omega),
           if_neg (by omega), if_neg (by omega), if_pos (by omega)]
         rw [Mmu.write_byte, if_neg (by omega), if_neg (by omega),
           if_neg (by omega), if_pos (by omega)]
         dsimp only
         rw [if_neg (by omega), Mmu.read_byte, if_neg (by omega),
           if_neg (by omega), if_neg (by omega), if_neg (by omega),
           if_pos (by omega)])

theorem read_word_write_word (m : Mmu) (a v : Nat) (ha : writableRange a)
    (ha1 : writableRange (a + 1)) (hv : v < 65536) :
    ∀ m', m.write_word a v = some m' → m'.read_word a = some v := by
  have hle : a + 1 ≤ 0xffff := by
    rcases ha1 with ⟨h3, h4⟩ | ⟨h3, h4⟩ | ⟨h3, h4⟩ | ⟨h3, h4⟩ <;> omega
  intro m' h
  rw [Mmu.write_word, if_neg (by omega)] at h
  obtain rfl := Option.some.inj h
  rw [Mmu.read_word, if_neg (by omega)]
  rw [read_byte_write_byte_same _ _ _ ha1]
  rw [read_byte_write_byte_succ _ _ _ ha ha1,
    read_byte_write_byte_same _ _ _ ha]
  rw [and_255_eq_mod, and_255_eq_mod, Nat.shiftRight_eq_div_pow]
  dsimp only
  rw [shiftLeft8_or_eq_add _ _ (by omega), Nat.shiftLeft_eq,
    show (2 : Nat) ^ 8 = 256 from by norm_num]
  exact congrArg some (by omega)

theorem lo_nibble_mask : ∀ f : Nat, f < 256 → f % 16 = 0 → f &&& 240 = f := by
  decide

theorem and_240_eq_mod (raw : Nat) (h : raw % 16 = 0) :
    raw &&& 240 = raw % 256 := by
  have h1 : raw &&& 240 = (raw &&& 255) &&& 240 := by
    rw [Nat.and_assoc, show (255 &&& 240 : Nat) = 240 from by decide]
  rw [h1, and_255_eq_mod]
  exact lo_nibble_mask _ (Nat.mod_lt _ (by omega)) (by omega)

theorem bc_set_bc (r : Regs) (raw : Nat) (h : raw < 65536) :
    (r.set_bc raw).bc = raw := by
  rw [Regs.set_bc, Regs.bc]
  dsimp only
  rw [and_ff00_shiftRight, and_255_eq_mod, and_255_eq_mod,
    Nat.shiftRight_eq_div_pow, Nat.shiftLeft_eq,
    show (2 : Nat) ^ 8 = 256 from by norm_num]
  omega

theorem de_set_de (r : Regs) (raw : Nat) (h : raw < 65536) :
    (r.set_de raw).de = raw := by
  rw [Regs.set_de, Regs.de]
  dsimp only
  rw [and_ff00_shiftRight, and_255_eq_mod, and_255_eq_mod,
    Nat.shiftRight_eq_div_pow, Nat.shiftLeft_eq,
    show (2 : Nat) ^ 8 = 256 from by norm_num]
  omega

theorem hl_set_hl (r : Regs) (raw : Nat) (h : raw < 65536) :
    (r.set_hl raw).hl = raw := by
  rw [Regs.set_hl, Regs.hl]
  dsimp only
  rw [and_ff00_shiftRight, and_255_eq_mod, and_255_eq_mod,
    Nat.shiftRight_eq_div_pow, Nat.shiftLeft_eq,
    show (2 : Nat) ^ 8 = 256 from by norm_num]
  omega

theorem af_set_af (r : Regs) (raw : Nat) (h : raw < 65536)
    (h16 : raw % 16 = 0) : (r.set_af raw).af = raw := by
  rw [Regs.set_af, Regs.af]
  dsimp only
  rw [and_ff00_shiftRight, and_255_eq_mod, and_240_eq_mod raw h16,
    Nat.shiftRight_eq_div_pow, Nat.shiftLeft_eq,
    show (2 : Nat) ^ 8 = 256 from by norm_num]
  omega

/-- C8 (amended): PUSH-then-POP of the same register pair restores the pair
and SP, provided the two stack bytes land in a writable backed region of the
interconnect and, for the AF pair, the flag register's unused low nibble is
zero (as it is in every reachable state).  The unrestricted claim fails when
the stack points at unbacked or overlay memory, where the pushed bytes are
discarded — see the counterexample. -/
theorem C8_amended (c : Cpu) (m : Mmu) (p : Nat) (hp : p < 4)
    (hwf : c.regs.wf) (hf : p = 3 → c.regs.f % 16 = 0)
    (hw : writableRange ((c.regs.sp + 65534) % 65536))
    (hw1 : writableRange ((c.regs.sp + 65534) % 65536 + 1)) :
    (match c.run2 m (Opcode.mk (0xc5 + 16 * p) (16, 16))
        (Opcode.mk (0xc1 + 16 * p) (12, 12)) with
     | .ok c' _ _ =>
        c'.get_r16_from_rp2 p = c.get_r16_from_rp2 p ∧ c'.regs.sp = c.regs.sp
     | _ => False) := by
  obtain ⟨ha, hfb, hb, hc, hd, he, hh, hl, hpc, hsp⟩ := hwf
  have hle : (c.regs.sp + 65534) % 65536 + 1 ≤ 0xffff := by
    rcases hw1 with ⟨h3, h4⟩ | ⟨h3, h4⟩ | ⟨h3, h4⟩ | ⟨h3, h4⟩ <;> omega
  interval_cases p
  · -- BC
    have hnn : c.regs.bc < 65536 := by
      rw [Regs.bc, Nat.shiftLeft_eq, show (2 : Nat) ^ 8 = 256 from by norm_num]
      omega
    have hm₁ : m.write_word ((c.regs.sp + 65534) % 65536) c.regs.bc =
        some ((m.write_byte ((c.regs.sp + 65534) % 65536)
            (c.regs.bc &&& 255)).write_byte
          ((c.regs.sp + 65534) % 65536 + 1) ((c.regs.bc >>> 8) &&& 255)) := by
      rw [Mmu.write_word, if_neg (by omega)]
    have hrw := read_word_write_word m _ c.regs.bc hw hw1 hnn _ hm₁
    simp +decide [Cpu.run2, Cpu.run_opcode_un, Opcode.x, Opcode.y, Opcode.z,
      Opcode.p, Opcode.q, Cpu.get_r16_from_rp2, Cpu.stack_push, Cpu.stack_pop,
      Cpu.set_r16_from_rp2, hm₁, hrw]
    constructor
    · exact bc_set_bc _ _ hnn
    · rw [Regs.set_bc]
      dsimp only
      omega
  · -- DE
    have hnn : c.regs.de < 65536 := by
      rw [Regs.de, Nat.shiftLeft_eq, show (2 : Nat) ^ 8 = 256 from by norm_num]
      omega
    have hm₁ : m.write_word ((c.regs.sp + 65534) % 65536) c.regs.de =
        some ((m.write_byte ((c.regs.sp + 65534) % 65536)
            (c.regs.de &&& 255)).write_byte
          ((c.regs.sp + 65534) % 65536 + 1) ((c.regs.de >>> 8) &&& 255)) := by
      rw [Mmu.write_word, if_neg (by omega)]
    have hrw := read_word_write_word m _ c.regs.de hw hw1 hnn _ hm₁
    simp +decide [Cpu.run2, Cpu.run_opcode_un, Opcode.x, Opcode.y, Opcode.z,
      Opcode.p, Opcode.q, Cpu.get_r16_from_rp2, Cpu.stack_push, Cpu.stack_pop,
      Cpu.set_r16_from_rp2, hm₁, hrw]
    constructor
    · exact de_set_de _ _ hnn
    · rw [Regs.set_de]
      dsimp only
      omega
  · -- HL
    have hnn : c.regs.hl < 65536 := by
      rw [Regs.hl, Nat.shiftLeft_eq, show (2 : Nat) ^ 8 = 256 from by norm_num]
      omega
    have hm₁ : m.write_word ((c.regs.sp + 65534) % 65536) c.regs.hl =
        some ((m.write_byte ((c.regs.sp + 65534) % 65536)
            (c.regs.hl &&& 255)).write_byte
          ((c.regs.sp + 65534) % 65536 + 1) ((c.regs.hl >>> 8) &&& 255)) := by
      rw [Mmu.write_word, if_neg (by omega)]
    have hrw := read_word_write_word m _ c.regs.hl hw hw1 hnn _ hm₁
    simp +decide [Cpu.run2, Cpu.run_opcode_un, Opcode.x, Opcode.y, Opcode.z,
      Opcode.p, Opcode.q, Cpu.get_r16_from_rp2, Cpu.stack_push, Cpu.stack_pop,
      Cpu.set_r16_from_rp2, hm₁, hrw]
    constructor
    · exact hl_set_hl _ _ hnn
    · rw [Regs.set_hl]
      dsimp only
      omega
  · -- AF
    have hnn : c.regs.af < 65536 := by
      rw [Regs.af, Nat.shiftLeft_eq, show (2 : Nat) ^ 8 = 256 from by norm_num]
      omega
    have h16 : c.regs.af % 16 = 0 := by
      have hf0 := hf rfl
      rw [Regs.af, Nat.shiftLeft_eq, show (2 : Nat) ^ 8 = 256 from by norm_num]
      omega
    have hm₁ : m.write_word ((c.regs.sp + 65534) % 65536) c.regs.af =
        some ((m.write_byte ((c.regs.sp + 65534) % 65536)
            (c.regs.af &&& 255)).write_byte
          ((c.regs.sp + 65534) % 65536 + 1) ((c.regs.af >>> 8) &&& 255)) := by
      rw [Mmu.write_word, if_neg (by omega)]
    have hrw := read_word_write_word m _ c.regs.af hw hw1 hnn _ hm₁
    simp +decide [Cpu.run2, Cpu.run_opcode_un, Opcode.x, Opcode.y, Opcode.z,
      Opcode.p, Opcode.q, Cpu.get_r16_from_rp2, Cpu.stack_push, Cpu.stack_pop,
      Cpu.set_r16_from_rp2, hm₁, hrw]
    constructor
    · exact af_set_af _ _ hnn h16
    · rw [Regs.set_af]
      dsimp only
      omega

/-- C8 counterexample: with SP = 0x0002 the pushed bytes land in the
boot-overlay/unbacked range 0x0000-0x0001 where writes are discarded, and the
following POP reads the overlay ROM bytes `0x31 0xfe` instead; BC, pushed as
0x1234, comes back as 0xfe31, so PUSH-then-POP does not restore the pair for
every starting state (SP itself is restored). -/
theorem C8_counterexample :
    (match Cpu.run2
        { Cpu.new with regs := { b := 0x12, c := 0x34, sp := 0x0002 } }
        Mmu.new (Opcode.mk 0xc5 (16, 16)) (Opcode.mk 0xc1 (12, 12)) with
     | .ok c' _ _ => (c'.regs.bc, c'.regs.sp)
     | _ => (0, 0)) = (0xfe31, 0x0002) ∧
    ({ b := 0x12, c := 0x34, sp := 0x0002 : Regs }).bc = 0x1234 ∧
    (0xfe31 : Nat) ≠ 0x1234 :=
  ⟨rfl, rfl, by decide⟩

theorem C8_witness :
    (match Cpu.run2
        { Cpu.new with regs := { b := 0x12, c := 0x34, sp := 0xc004 } }
        Mmu.new (Opcode.mk (0xc5 + 16 * 0) (16, 16))
        (Opcode.mk (0xc1 + 16 * 0) (12, 12)) with
     | .ok c' _ _ =>
        c'.get_r16_from_rp2 0 =
          ({ Cpu.new with
              regs := { b := 0x12, c := 0x34, sp := 0xc004 } } : Cpu).get_r16_from_rp2
            0 ∧
        c'.regs.sp =
          ({ Cpu.new with
              regs := { b := 0x12, c := 0x34, sp := 0xc004 } } : Cpu).regs.sp
     | _ => False) :=
  C8_amended { Cpu.new with regs := { b := 0x12, c := 0x34, sp := 0xc004 } }
    Mmu.new 0 (by omega) (by decide) (fun h => absurd h (by decide))
    (by decide) (by decide)

end RGB
